import Mathlib

/-!
# Verification of the seal-generator rendering pipeline

Shallow embedding of `src/seal-generator/src/SealGenerator.ts`.

Modelling conventions:
* JavaScript numbers (IEEE-754 doubles) are idealised as exact rationals `ℚ`,
  extended with the special values `Infinity`, `-Infinity` and `NaN` where the
  code can produce them (type `JSNum`).  `Math.PI`, `Math.cos` and `Math.sin`
  are opaque collaborators and are passed in as parameters (`mathPi : ℚ`,
  `cosF sinF : ℚ → ℚ`): on every finite double they return a finite double,
  and on a non-finite argument `Math.cos`/`Math.sin` return `NaN`.
* `Math.random()` is modelled as an explicit stream `rng : ℕ → ℚ` consumed
  left to right; every call to `Math.random()` in the source consumes exactly
  one position of the stream, in source order.
* A `Uint8ClampedArray` store clamps to `[0,255]` and rounds to the nearest
  integer with ties to even (`toU8`).
* The canvas is an external collaborator: the renderer is modelled as the
  trace of draw calls it issues (`RenderTrace`), and rasterisation as an
  arbitrary function from traces to pixel buffers.
-/

/-- JavaScript number: a finite double (idealised as `ℚ`) or one of the
special values `Infinity`, `-Infinity`, `NaN`. -/
inductive JSNum where
  | fin (q : ℚ)
  | inf
  | ninf
  | nan
deriving DecidableEq

namespace JSNum

/-- IEEE addition on `JSNum` (signed zeros ignored; irrelevant here). -/
def add : JSNum → JSNum → JSNum
  | nan, _ => nan
  | _, nan => nan
  | fin a, fin b => fin (a + b)
  | fin _, inf => inf
  | inf, fin _ => inf
  | fin _, ninf => ninf
  | ninf, fin _ => ninf
  | inf, inf => inf
  | ninf, ninf => ninf
  | inf, ninf => nan
  | ninf, inf => nan

/-- IEEE multiplication on `JSNum`: `0 · ±∞ = NaN`, `NaN` propagates. -/
def mul : JSNum → JSNum → JSNum
  | nan, _ => nan
  | _, nan => nan
  | fin a, fin b => fin (a * b)
  | fin a, inf => if 0 < a then inf else if a < 0 then ninf else nan
  | inf, fin a => if 0 < a then inf else if a < 0 then ninf else nan
  | fin a, ninf => if 0 < a then ninf else if a < 0 then inf else nan
  | ninf, fin a => if 0 < a then ninf else if a < 0 then inf else nan
  | inf, inf => inf
  | inf, ninf => ninf
  | ninf, inf => ninf
  | ninf, ninf => inf

/-- IEEE division on `JSNum`: division of a nonzero finite number by zero
yields a signed infinity, `0/0 = NaN` (the zero divisor is `+0`; signed
zeros are otherwise ignored). -/
def div : JSNum → JSNum → JSNum
  | nan, _ => nan
  | _, nan => nan
  | fin a, fin b =>
      if b ≠ 0 then fin (a / b)
      else if 0 < a then inf
      else if a < 0 then ninf
      else nan
  | inf, fin b => if 0 ≤ b then inf else ninf
  | ninf, fin b => if 0 ≤ b then ninf else inf
  | fin _, inf => fin 0
  | fin _, ninf => fin 0
  | inf, inf => nan
  | inf, ninf => nan
  | ninf, inf => nan
  | ninf, ninf => nan

instance : Add JSNum := ⟨JSNum.add⟩
instance : Mul JSNum := ⟨JSNum.mul⟩
instance : Div JSNum := ⟨JSNum.div⟩

/-- Application of a real JS math function (`Math.cos`, `Math.sin`): on a
finite double it returns a finite double, on `±∞` or `NaN` it returns
`NaN`. -/
def app1 (f : ℚ → ℚ) : JSNum → JSNum
  | fin q => fin (f q)
  | _ => nan

@[simp] theorem fin_add_fin (a b : ℚ) : fin a + fin b = fin (a + b) := rfl
@[simp] theorem nan_add (x : JSNum) : nan + x = nan := by cases x <;> rfl
@[simp] theorem add_nan (x : JSNum) : x + nan = nan := by cases x <;> rfl
@[simp] theorem fin_mul_fin (a b : ℚ) : fin a * fin b = fin (a * b) := rfl
@[simp] theorem nan_mul (x : JSNum) : nan * x = nan := by cases x <;> rfl
@[simp] theorem mul_nan (x : JSNum) : x * nan = nan := by cases x <;> rfl
@[simp] theorem nan_div (x : JSNum) : nan / x = nan := by cases x <;> rfl
@[simp] theorem app1_fin (f : ℚ → ℚ) (q : ℚ) : app1 f (fin q) = fin (f q) := rfl
@[simp] theorem app1_nan (f : ℚ → ℚ) : app1 f nan = nan := rfl

theorem fin_div_fin (a b : ℚ) (hb : b ≠ 0) :
    fin a / fin b = fin (a / b) := by
  show div (fin a) (fin b) = fin (a / b)
  simp [div, hb]

theorem fin_div_fin_zero_of_pos (a : ℚ) (ha : 0 < a) :
    fin a / fin 0 = inf := by
  show div (fin a) (fin 0) = inf
  simp [div, ha]

theorem fin_zero_mul_inf : fin 0 * inf = nan := by
  show mul (fin 0) inf = nan
  simp [mul]

end JSNum

section CompanyName

/-!
## Company-name arc layout (`drawCompanyName`, SealGenerator.ts lines 238-276)

```ts
const chars = text.split("");
const totalAngle = 240;
const angleStep = totalAngle / (chars.length - 1);
const startAngle = -90 - totalAngle / 2;
chars.forEach((char, i) => {
  const angle = ((startAngle + i * angleStep) * Math.PI) / 180;
  const x = radius * radiusRatio * Math.cos(angle);
  const y = radius * radiusRatio * Math.sin(angle);
  ctx.translate(x, y);
  let rotationAngle = angle + Math.PI / 2;
  ctx.rotate(rotationAngle);
  ctx.strokeText(char, 0, 0);
  ctx.fillText(char, 0, 0);
});
```

Each iteration of the `forEach` is modelled as one `CompanyGlyph` draw event
recording the translation `(x, y)` and the rotation applied before the glyph
is drawn at the local origin. -/

/-- One company-name glyph draw call: the character, the translation applied
before drawing it at the local origin, and the rotation (radians). -/
structure CompanyGlyph where
  ch : Char
  x : JSNum
  y : JSNum
  rot : JSNum
deriving DecidableEq

/-- `angle = ((startAngle + i * angleStep) * Math.PI) / 180` (radians). -/
def glyphAngle (mathPi : ℚ) (angleStep : JSNum) (startAngle : ℚ) (i : ℕ) : JSNum :=
  (JSNum.fin startAngle + JSNum.fin (i : ℚ) * angleStep) * JSNum.fin mathPi /
    JSNum.fin 180

/-- The glyph draw event for character `c` at index `i` of the arc. -/
def glyphOf (cosF sinF : ℚ → ℚ) (mathPi radius ratio : ℚ) (angleStep : JSNum)
    (startAngle : ℚ) (i : ℕ) (c : Char) : CompanyGlyph :=
  let angle := glyphAngle mathPi angleStep startAngle i
  { ch := c
    x := JSNum.fin radius * JSNum.fin ratio * JSNum.app1 cosF angle
    y := JSNum.fin radius * JSNum.fin ratio * JSNum.app1 sinF angle
    rot := angle + JSNum.fin mathPi / JSNum.fin 2 }

/-- The `chars.forEach((char, i) => ...)` loop, starting at index `i`. -/
def glyphRun (cosF sinF : ℚ → ℚ) (mathPi radius ratio : ℚ) (angleStep : JSNum)
    (startAngle : ℚ) : ℕ → List Char → List CompanyGlyph
  | _, [] => []
  | i, c :: cs =>
      glyphOf cosF sinF mathPi radius ratio angleStep startAngle i c ::
        glyphRun cosF sinF mathPi radius ratio angleStep startAngle (i + 1) cs

/-- `drawCompanyName` (SealGenerator.ts lines 238-276): the list of glyph
draw events, in source order.  `fontSize` only affects styling, not layout,
and is kept for signature fidelity. -/
def drawCompanyName (cosF sinF : ℚ → ℚ) (mathPi : ℚ) (text : String)
    (radius fontSize ratio : ℚ) : List CompanyGlyph :=
  let chars := text.toList
  let totalAngle : ℚ := 240
  let angleStep : JSNum :=
    JSNum.fin totalAngle / JSNum.fin ((chars.length : ℚ) - 1)
  let startAngle : ℚ := -90 - totalAngle / 2
  glyphRun cosF sinF mathPi radius ratio angleStep startAngle 0 chars

/-- The glyph angle, in degrees, that the spec ascribes to index `i` of an
`n`-character company name: `θ i = -210 + i · 240/(n-1)`. -/
def companyTheta (n : ℕ) (i : ℕ) : ℚ := -210 + (i : ℚ) * (240 / ((n : ℚ) - 1))

theorem glyphRun_length (cosF sinF : ℚ → ℚ) (mathPi radius ratio : ℚ)
    (angleStep : JSNum) (startAngle : ℚ) (i : ℕ) (cs : List Char) :
    (glyphRun cosF sinF mathPi radius ratio angleStep startAngle i cs).length
      = cs.length := by
  induction cs generalizing i with
  | nil => rfl
  | cons c cs ih => simp [glyphRun, ih]

theorem glyphRun_get? (cosF sinF : ℚ → ℚ) (mathPi radius ratio : ℚ)
    (angleStep : JSNum) (startAngle : ℚ) (cs : List Char) (i : ℕ) (j : ℕ)
    (c : Char) (h : cs.get? j = some c) :
    (glyphRun cosF sinF mathPi radius ratio angleStep startAngle i cs).get? j
      = some (glyphOf cosF sinF mathPi radius ratio angleStep startAngle (i + j) c) := by
  induction cs generalizing i j with
  | nil => simp at h
  | cons hd tl ih =>
      cases j with
      | zero =>
          obtain rfl : hd = c := Option.some.inj h
          simp [glyphRun]
      | succ j =>
          have h' : tl.get? j = some c := h
          have hidx : i + (j + 1) = (i + 1) + j := by omega
          rw [hidx]
          exact ih (i + 1) j h'

end CompanyName

section Border

/-!
## Border drawing (`drawBorder`, SealGenerator.ts lines 166-204)

```ts
if (style === "solid") {
  ctx.arc(0, 0, radius, 0, Math.PI * 2); ctx.stroke();
} else {
  for (let angle = 0; angle < 360; angle += 10) {
    const startAngle = (angle * Math.PI) / 180;
    const endAngle = ((angle + 5) * Math.PI) / 180;
    ctx.beginPath(); ctx.arc(0, 0, radius, startAngle, endAngle); ctx.stroke();
  }
}
if (this.options.showInnerCircle) {
  ctx.lineWidth = Math.max(2, width * 0.5);
  ctx.shadowBlur = 0;
  ctx.arc(0, 0, radius - 12, 0, Math.PI * 2); ctx.stroke();
}
```

The dashed loop runs for `angle = 10·j`, `j = 0, …, 35` (it stops at 360).
Each `ctx.stroke()` of an arc path is one `ArcStroke` event, recording the
arc geometry (angles in radians) and the line width / shadow blur in effect
at that call. -/

/-- Border style enum (`"solid" | "dashed"`). -/
inductive BorderStyle where
  | solid
  | dashed
deriving DecidableEq

/-- One stroked arc draw call: geometry (angles in radians) plus the line
width and shadow blur in effect when `ctx.stroke()` runs. -/
structure ArcStroke where
  radius : ℚ
  startA : ℚ
  endA : ℚ
  lineWidth : ℚ
  shadowBlur : ℚ
deriving DecidableEq

/-- Iteration `angle = 10·j` of the dashed-border loop: one stroked arc
from `angle` to `angle + 5` degrees (radians `·π/180`). -/
def dashSeg (mathPi radius width : ℚ) (j : ℕ) : ArcStroke :=
  let angle : ℚ := 10 * (j : ℚ)
  { radius := radius, startA := angle * mathPi / 180,
    endA := (angle + 5) * mathPi / 180,
    lineWidth := width, shadowBlur := 2 }

/-- The solid outer ring: `ctx.arc(0, 0, radius, 0, Math.PI * 2)`. -/
def solidRing (mathPi radius width : ℚ) : ArcStroke :=
  { radius := radius, startA := 0, endA := mathPi * 2,
    lineWidth := width, shadowBlur := 2 }

/-- The inner ring: `ctx.arc(0, 0, radius - 12, 0, Math.PI * 2)` with
`ctx.lineWidth = Math.max(2, width * 0.5)` and `ctx.shadowBlur = 0`. -/
def innerRing (mathPi radius width : ℚ) : ArcStroke :=
  { radius := radius - 12, startA := 0, endA := mathPi * 2,
    lineWidth := max 2 (width * (1/2)), shadowBlur := 0 }

/-- `drawBorder` (SealGenerator.ts lines 166-204): the stroked-arc draw
calls it issues, in source order — the outer ring (one full circle if solid,
36 dash segments if dashed), then the optional inner ring. -/
def drawBorder (mathPi radius width : ℚ) (style : BorderStyle)
    (showInner : Bool) : List ArcStroke :=
  (match style with
    | .solid => [solidRing mathPi radius width]
    | .dashed => (List.range 36).map (dashSeg mathPi radius width)) ++
  (if showInner then [innerRing mathPi radius width] else [])

end Border

section Config

/-!
## Configuration resolution (`SealGenerator` constructor, lines 56-80)

Most fields are resolved with the JavaScript `||` operator, which replaces
any *falsy* value (`undefined`, `0`, `""`, `NaN`) by the default; only
`showInnerCircle`, `aging` and `agingStrength` are compared against
`undefined` and therefore keep explicitly-set falsy values.  An absent field
of the options object is `none`. -/

/-- The caller-supplied options object (`SealOptions`); `none` = field
absent (`undefined`). -/
structure SealOptions where
  size : Option ℕ
  color : Option String
  company : Option String
  title : Option String
  starSize : Option ℚ
  companyFontSize : Option ℚ
  titleFontSize : Option ℚ
  rotation : Option ℚ
  opacity : Option ℚ
  borderWidth : Option ℚ
  borderStyle : Option BorderStyle
  companyRadiusRatio : Option ℚ
  titleRadiusRatio : Option ℚ
  starBottomAngle : Option ℚ
  showInnerCircle : Option Bool
  aging : Option Bool
  agingStrength : Option ℚ
deriving DecidableEq

/-- The resolved configuration (`Required<SealOptions>`).  Canvas
dimensions are integral, so `size` is a natural number. -/
structure SealConfig where
  size : ℕ
  color : String
  company : String
  title : String
  starSize : ℚ
  companyFontSize : ℚ
  titleFontSize : ℚ
  rotation : ℚ
  opacity : ℚ
  borderWidth : ℚ
  borderStyle : BorderStyle
  companyRadiusRatio : ℚ
  titleRadiusRatio : ℚ
  starBottomAngle : ℚ
  showInnerCircle : Bool
  aging : Bool
  agingStrength : ℚ
deriving DecidableEq

/-- JS `v || d` for a possibly-absent number: `0` is falsy. -/
def jsOrQ (v : Option ℚ) (d : ℚ) : ℚ :=
  match v with
  | none => d
  | some x => if x = 0 then d else x

/-- JS `v || d` for a possibly-absent nonnegative integer: `0` is falsy. -/
def jsOrN (v : Option ℕ) (d : ℕ) : ℕ :=
  match v with
  | none => d
  | some x => if x = 0 then d else x

/-- JS `v || d` for a possibly-absent string: `""` is falsy. -/
def jsOrS (v : Option String) (d : String) : String :=
  match v with
  | none => d
  | some s => if s = "" then d else s

/-- JS `v !== undefined ? v : d` (also `v || d` on the border-style enum,
whose two values `"solid"` and `"dashed"` are both truthy strings). -/
def jsIfUndef {α : Type} (v : Option α) (d : α) : α := v.getD d

/-- The constructor's option resolution (SealGenerator.ts lines 56-80). -/
def resolveOptions (o : SealOptions) : SealConfig :=
  { size := jsOrN o.size 400
    color := jsOrS o.color "#FF0000"
    company := jsOrS o.company "测试公司"
    title := jsOrS o.title " "
    starSize := jsOrQ o.starSize 100
    companyFontSize := jsOrQ o.companyFontSize 24
    titleFontSize := jsOrQ o.titleFontSize 20
    rotation := jsOrQ o.rotation 0
    opacity := jsOrQ o.opacity 1
    borderWidth := jsOrQ o.borderWidth 6
    borderStyle := jsIfUndef o.borderStyle .solid
    companyRadiusRatio := jsOrQ o.companyRadiusRatio (3/4)
    titleRadiusRatio := jsOrQ o.titleRadiusRatio (33/100)
    starBottomAngle := jsOrQ o.starBottomAngle 108
    showInnerCircle := jsIfUndef o.showInnerCircle true
    aging := jsIfUndef o.aging true
    agingStrength := jsIfUndef o.agingStrength (13/100) }

/-- The empty options object `{}` (every field absent). -/
def emptyOptions : SealOptions :=
  { size := none, color := none, company := none, title := none
    starSize := none, companyFontSize := none, titleFontSize := none
    rotation := none, opacity := none, borderWidth := none
    borderStyle := none, companyRadiusRatio := none, titleRadiusRatio := none
    starBottomAngle := none, showInnerCircle := none, aging := none
    agingStrength := none }

end Config

section Aging

/-!
## Aging filter (`addAgingEffect`, SealGenerator.ts lines 310-373)

The buffer is a list of RGBA pixels (one `Pixel` per 4 bytes of
`imageData.data`); pixel `p` of a `size × size` canvas has coordinates
`x = p % size`, `y = ⌊p / size⌋`.  Every store into the
`Uint8ClampedArray` clamps to `[0,255]` and rounds ties-to-even (`toU8`).
`Math.random()` draws are taken from `rng` in source order: 10 draws for the
two fade areas, then per non-transparent pixel one draw for the grain noise,
two draws when the pixel is in the edge-erosion band, one draw per fade
area containing the pixel, and one draw for the final alpha jitter. -/

/-- Round to the nearest integer, ties to even (IEEE / `Uint8ClampedArray`
rounding). -/
def roundHalfEven (q : ℚ) : ℤ :=
  let f := ⌊q⌋
  let r := q - (f : ℚ)
  if r < 1/2 then f
  else if 1/2 < r then f + 1
  else if f % 2 = 0 then f else f + 1

/-- A store into a `Uint8ClampedArray` cell: clamp to `[0,255]`, round
ties-to-even. -/
def toU8 (q : ℚ) : ℕ := (max 0 (min 255 (roundHalfEven q))).toNat

/-- One RGBA pixel of the raster buffer (each channel `0…255`). -/
structure Pixel where
  r : ℕ
  g : ℕ
  b : ℕ
  a : ℕ
deriving DecidableEq

/-- A localized fade ellipse, generated from five consecutive random draws
(lines 321-327):
```ts
x: cx + (Math.random() - 0.5) * radius * 0.7,
y: cy + (Math.random() - 0.5) * radius * 0.7,
rx: 30 + Math.random() * 30,
ry: 18 + Math.random() * 18,
fade: 0.5 + Math.random() * 0.2,
``` -/
structure FadeArea where
  x : ℚ
  y : ℚ
  rx : ℚ
  ry : ℚ
  fade : ℚ
deriving DecidableEq

def mkFadeArea (rng : ℕ → ℚ) (k : ℕ) (cx cy radius : ℚ) : FadeArea :=
  { x := cx + (rng k - 1/2) * radius * (7/10)
    y := cy + (rng (k+1) - 1/2) * radius * (7/10)
    rx := 30 + rng (k+2) * 30
    ry := 18 + rng (k+3) * 18
    fade := 1/2 + rng (k+4) * (1/5) }

/-- `dx*dx + dy*dy < 1` for `dx = (x - area.x)/area.rx`,
`dy = (y - area.y)/area.ry` (line 358). -/
def insideFade (area : FadeArea) (x y : ℚ) : Bool :=
  let dx := (x - area.x) / area.rx
  let dy := (y - area.y) / area.ry
  decide (dx * dx + dy * dy < 1)

/-- `√d2 > lo`, computed without square roots: `d2 ≥ 0` is a sum of
squares, so `√d2 > lo ↔ lo < 0 ∨ lo² < d2`.  Exact reformulation of the
source's `dist > radius - 8` with `dist = Math.sqrt(...)`. -/
def sqrtGtB (d2 lo : ℚ) : Bool := decide (lo < 0) || decide (lo * lo < d2)

/-- `√d2 < hi` without square roots: `√d2 < hi ↔ 0 < hi ∧ d2 < hi²`.
Exact reformulation of the source's `dist < radius + 8`. -/
def sqrtLtB (d2 hi : ℚ) : Bool := decide (0 < hi) && decide (d2 < hi * hi)

/-- Edge-erosion stage (lines 345-353), already knowing the pixel is in the
band:
```ts
if (Math.random() < 0.13 * strength) {
  data[i + 3] = data[i + 3] * (0.5 + Math.random() * 0.3);
} else if (Math.random() < 0.18 * strength) {
  data[i] = data[i] * 0.7;
  data[i + 1] = data[i + 1] * 0.7;
  data[i + 2] = data[i + 2] * 0.7;
}
```
Returns the updated pixel and the next unconsumed `rng` position (both
branches consume two draws: the first branch draws the condition then the
factor, the second draws both conditions). -/
def erosionStep (rng : ℕ → ℚ) (k : ℕ) (strength : ℚ) (px : Pixel) :
    Pixel × ℕ :=
  if rng k < 13/100 * strength then
    ({ px with a := toU8 ((px.a : ℚ) * (1/2 + rng (k+1) * (3/10))) }, k + 2)
  else if rng (k+1) < 18/100 * strength then
    ({ px with r := toU8 ((px.r : ℚ) * (7/10))
               g := toU8 ((px.g : ℚ) * (7/10))
               b := toU8 ((px.b : ℚ) * (7/10)) }, k + 2)
  else (px, k + 2)

/-- Localized-fade stage (lines 355-364): the `for (const area of
fadeAreas)` loop.  Each area containing the pixel scales RGB by its fade
factor and alpha by `0.92 + Math.random() * 0.06` (one draw per hit). -/
def applyFade (rng : ℕ → ℚ) (x y : ℚ) :
    List FadeArea → Pixel → ℕ → Pixel × ℕ
  | [], px, k => (px, k)
  | area :: rest, px, k =>
      if insideFade area x y then
        let px' : Pixel :=
          { r := toU8 ((px.r : ℚ) * area.fade)
            g := toU8 ((px.g : ℚ) * area.fade)
            b := toU8 ((px.b : ℚ) * area.fade)
            a := toU8 ((px.a : ℚ) * (92/100 + rng k * (6/100))) }
        applyFade rng x y rest px' (k + 1)
      else applyFade rng x y rest px k

/-- The per-pixel body of the aging loop (lines 328-370), guarded by
`if (data[i + 3] > 0)`.  Returns the updated pixel and the next `rng`
position. -/
def agePixel (rng : ℕ → ℚ) (strength radius cx cy : ℚ)
    (areas : List FadeArea) (x y : ℚ) (px : Pixel) (k : ℕ) : Pixel × ℕ :=
  let distSq := (x - cx) * (x - cx) + (y - cy) * (y - cy)
  if 0 < px.a then
    -- 1. global fade
    let r1 := toU8 ((px.r : ℚ) * (93/100 - strength * (2/10)))
    let g1 := toU8 ((px.g : ℚ) * (93/100 - strength * (1/10)))
    let b1 := toU8 ((px.b : ℚ) * (93/100 - strength * (1/10)))
    -- 2. grain noise
    let noise := (rng k - 1/2) * 255 * strength * (7/10)
    let r2 := toU8 (max 0 (min 255 ((r1 : ℚ) + noise)))
    let g2 := toU8 (max 0 (min 255 ((g1 : ℚ) + noise * (1/2))))
    let b2 := toU8 (max 0 (min 255 ((b1 : ℚ) + noise * (1/2))))
    let k1 := k + 1
    -- 3. edge erosion, only in the band  radius - 8 < dist < radius + 8
    let step3 :=
      if sqrtGtB distSq (radius - 8) && sqrtLtB distSq (radius + 8) then
        erosionStep rng k1 strength ⟨r2, g2, b2, px.a⟩
      else (⟨r2, g2, b2, px.a⟩, k1)
    -- 4. localized fade
    let step4 := applyFade rng x y areas step3.1 step3.2
    -- 5. alpha jitter
    let a5 := toU8 (max 0 (min 255 ((step4.1.a : ℚ) * (97/100 + rng step4.2 * (6/100)))))
    ({ step4.1 with a := a5 }, step4.2 + 1)
  else (px, k)

/-- The pixel loop `for (let i = 0; i < data.length; i += 4)`: pixel `p`
has coordinates `x = p % size`, `y = ⌊p / size⌋`. -/
def agePixels (rng : ℕ → ℚ) (strength radius cx cy : ℚ)
    (areas : List FadeArea) (size : ℕ) :
    List Pixel → ℕ → ℕ → List Pixel
  | [], _, _ => []
  | px :: rest, p, k =>
      let step := agePixel rng strength radius cx cy areas
        ((p % size : ℕ) : ℚ) ((p / size : ℕ) : ℚ) px k
      step.1 :: agePixels rng strength radius cx cy areas size rest (p + 1) step.2

/-- `addAgingEffect` (SealGenerator.ts lines 310-373).  Draws 0–9 of `rng`
build the two fade areas; the pixel loop consumes the stream from
position 10. -/
def addAgingEffect (rng : ℕ → ℚ) (size : ℕ) (strength : ℚ)
    (buf : List Pixel) : List Pixel :=
  let cx : ℚ := (size : ℚ) / 2
  let cy : ℚ := (size : ℚ) / 2
  let radius : ℚ := (size : ℚ) / 2 - 20
  let areas := [mkFadeArea rng 0 cx cy radius, mkFadeArea rng 5 cx cy radius]
  agePixels rng strength radius cx cy areas size buf 0 10

end Aging

section Renderer

/-!
## Renderer (`generate`, SealGenerator.ts lines 100-161)

The canvas surface is external; the renderer is modelled as the trace of
draw calls it issues, in the fixed source order.  Rasterisation (canvas →
RGBA buffer) and PNG encoding are deterministic external collaborators,
modelled as an arbitrary function `raster : RenderTrace → List Pixel`. -/

/-- The star glyph draw call (`drawStar`, lines 209-233). -/
structure StarDraw where
  x : ℚ
  y : ℚ
  size : ℚ
deriving DecidableEq

/-- The title draw call (`drawTitle`, lines 287-305): one
`ctx.fillText(text, 0, radius * radiusRatio)`. -/
structure TitleDraw where
  text : String
  x : ℚ
  y : ℚ
deriving DecidableEq

/-- The full trace of draw calls of one render, in source order. -/
structure RenderTrace where
  alpha : ℚ
  rotationRad : ℚ
  border : List ArcStroke
  star : StarDraw
  glyphs : List CompanyGlyph
  title : TitleDraw
deriving DecidableEq

/-- The deterministic drawing part of `generate` (lines 100-152): clear,
global alpha, translate to the centre, rotate, then border, star, company
name, title.  Every layout radius is the usable radius `size/2 - 20`. -/
def renderTrace (cosF sinF : ℚ → ℚ) (mathPi : ℚ) (cfg : SealConfig) :
    RenderTrace :=
  let size : ℚ := (cfg.size : ℚ)
  { alpha := cfg.opacity
    rotationRad := cfg.rotation * mathPi / 180
    border := drawBorder mathPi (size/2 - 20) cfg.borderWidth cfg.borderStyle
      cfg.showInnerCircle
    star := { x := 0, y := 0, size := cfg.starSize }
    glyphs := drawCompanyName cosF sinF mathPi cfg.company (size/2 - 20)
      cfg.companyFontSize cfg.companyRadiusRatio
    title := { text := cfg.title, x := 0
               y := (size/2 - 20) * cfg.titleRadiusRatio } }

/-- `generate` (lines 100-161): render the trace, rasterise it, and apply
the aging filter iff `aging` is set.  `rng` is the `Math.random()` stream;
the drawing stage never consumes it. -/
def generate (cosF sinF : ℚ → ℚ) (mathPi : ℚ) (cfg : SealConfig)
    (raster : RenderTrace → List Pixel) (rng : ℕ → ℚ) : List Pixel :=
  let buf := raster (renderTrace cosF sinF mathPi cfg)
  if cfg.aging then addAgingEffect rng cfg.size cfg.agingStrength buf
  else buf

end Renderer

section Helpers

theorem roundHalfEven_natCast (n : ℕ) : roundHalfEven (n : ℚ) = n := by
  unfold roundHalfEven
  norm_num

theorem toU8_le (q : ℚ) : toU8 q ≤ 255 := by
  unfold toU8
  omega

theorem toU8_natCast (n : ℕ) (h : n ≤ 255) : toU8 (n : ℚ) = n := by
  unfold toU8
  rw [roundHalfEven_natCast]
  omega

theorem toU8_clamp_coe (n : ℕ) (h : n ≤ 255) :
    toU8 (max 0 (min 255 (n : ℚ))) = n := by
  have h1 : min 255 (n : ℚ) = (n : ℚ) := by
    apply min_eq_right
    exact_mod_cast h
  have h2 : max 0 (n : ℚ) = (n : ℚ) := max_eq_right (by positivity)
  rw [h1, h2, toU8_natCast n h]

end Helpers

section ClaimC1

/-- **C1** (code bug exhibit).  For a one-character company string,
`drawCompanyName` computes `angleStep = 240 / (1 - 1) = Infinity`, then
`angle = ((-210 + 0 · Infinity) · π) / 180 = NaN`: the single glyph is
translated to `(NaN, NaN)` and rotated by `NaN`, for every choice of
`Math.cos`/`Math.sin`/`Math.PI` and every radius-ratio configuration —
not placed at the `-90°` midpoint the specification requires, and the
layout does produce non-finite coordinates and a non-finite rotation. -/
theorem singleChar_layout_propagates_nan (cosF sinF : ℚ → ℚ)
    (p radius fs ratio : ℚ) (c : Char) :
    drawCompanyName cosF sinF p (String.mk [c]) radius fs ratio =
      [{ ch := c, x := JSNum.nan, y := JSNum.nan, rot := JSNum.nan }] := by
  have hlen : (((String.mk [c]).toList.length : ℚ) - 1) = 0 := by
    simp [String.toList]
  have hstep : JSNum.fin 240 / JSNum.fin (((String.mk [c]).toList.length : ℚ) - 1)
      = JSNum.inf := by
    rw [hlen]
    exact JSNum.fin_div_fin_zero_of_pos 240 (by norm_num)
  have hangle : ∀ s0 : ℚ, glyphAngle p JSNum.inf s0 0 = JSNum.nan := by
    intro s0
    unfold glyphAngle
    simp [JSNum.fin_zero_mul_inf]
  show glyphRun cosF sinF p radius ratio
      (JSNum.fin 240 / JSNum.fin (((String.mk [c]).toList.length : ℚ) - 1))
      (-90 - 240 / 2) 0 [c] = _
  rw [hstep]
  show [glyphOf cosF sinF p radius ratio JSNum.inf (-90 - 240 / 2) 0 c] = _
  unfold glyphOf
  rw [hangle]
  simp

end ClaimC1

section ClaimC4

/-- **C4**.  For every configuration whose company string is empty, the
render trace contains no company-glyph draw call, and `generate` still
produces an output buffer. -/
theorem empty_company_draws_no_glyphs (cosF sinF : ℚ → ℚ) (p : ℚ)
    (cfg : SealConfig) (raster : RenderTrace → List Pixel) (rng : ℕ → ℚ)
    (h : cfg.company = "") :
    (renderTrace cosF sinF p cfg).glyphs = [] ∧
    ∃ out : List Pixel, generate cosF sinF p cfg raster rng = out := by
  refine ⟨?_, ⟨_, rfl⟩⟩
  simp only [renderTrace, h]
  rfl

/-- Witness for C4 at a concrete configuration with `company = ""`. -/
theorem empty_company_draws_no_glyphs_witness :
    (renderTrace (fun _ => 0) (fun _ => 0) (157/50)
        { resolveOptions emptyOptions with company := "" }).glyphs = [] ∧
    ∃ out : List Pixel,
      generate (fun _ => 0) (fun _ => 0) (157/50)
        { resolveOptions emptyOptions with company := "" }
        (fun _ => []) (fun _ => 0) = out :=
  empty_company_draws_no_glyphs (fun _ => 0) (fun _ => 0) (157/50)
    { resolveOptions emptyOptions with company := "" } (fun _ => []) (fun _ => 0) rfl

end ClaimC4

section ClaimC6

/-- **C6**.  With `aging = false` the output buffer is a pure deterministic
function of the configuration: the `Math.random()` stream is never
consumed, so two runs with identical configuration (and the same
deterministic rasteriser) produce identical buffers. -/
theorem no_aging_deterministic (cosF sinF : ℚ → ℚ) (p : ℚ)
    (cfg : SealConfig) (raster : RenderTrace → List Pixel)
    (h : cfg.aging = false) (rng₁ rng₂ : ℕ → ℚ) :
    generate cosF sinF p cfg raster rng₁ = generate cosF sinF p cfg raster rng₂ := by
  simp [generate, h]

/-- Witness for C6: a concrete `aging = false` configuration rendered
against two different random streams. -/
theorem no_aging_deterministic_witness :
    generate (fun _ => 0) (fun _ => 0) (157/50)
        (resolveOptions { emptyOptions with aging := some false })
        (fun _ => [⟨255, 0, 0, 255⟩]) (fun _ => 0) =
      generate (fun _ => 0) (fun _ => 0) (157/50)
        (resolveOptions { emptyOptions with aging := some false })
        (fun _ => [⟨255, 0, 0, 255⟩]) (fun _ => 1/2) :=
  no_aging_deterministic (fun _ => 0) (fun _ => 0) (157/50)
    (resolveOptions { emptyOptions with aging := some false })
    (fun _ => [⟨255, 0, 0, 255⟩]) rfl (fun _ => 0) (fun _ => 1/2)

end ClaimC6

section ClaimC7

theorem agePixel_transparent (rng : ℕ → ℚ) (strength radius cx cy : ℚ)
    (areas : List FadeArea) (x y : ℚ) (px : Pixel) (k : ℕ) (ha : px.a = 0) :
    agePixel rng strength radius cx cy areas x y px k = (px, k) := by
  unfold agePixel
  simp [ha]

theorem agePixels_transparent_get? (rng : ℕ → ℚ) (strength radius cx cy : ℚ)
    (areas : List FadeArea) (size : ℕ) (buf : List Pixel) :
    ∀ (p k i : ℕ) (px : Pixel), buf.get? i = some px → px.a = 0 →
      (agePixels rng strength radius cx cy areas size buf p k).get? i = some px := by
  induction buf with
  | nil => intro p k i px h _; simp at h
  | cons hd tl ih =>
      intro p k i px h ha
      cases i with
      | zero =>
          obtain rfl : hd = px := Option.some.inj h
          show some (agePixel rng strength radius cx cy areas
            ((p % size : ℕ) : ℚ) ((p / size : ℕ) : ℚ) hd k).1 = some hd
          rw [agePixel_transparent _ _ _ _ _ _ _ _ _ _ ha]
      | succ i =>
          have h' : tl.get? i = some px := h
          exact ih (p + 1)
            (agePixel rng strength radius cx cy areas
              ((p % size : ℕ) : ℚ) ((p / size : ℕ) : ℚ) hd k).2 i px h' ha

/-- **C7**.  For every input buffer, strength and random stream, the aging
filter leaves every pixel whose alpha is 0 before the pass entirely
unchanged (all four channels): fully transparent pixels are never
written. -/
theorem aging_preserves_transparent_pixels (rng : ℕ → ℚ) (size : ℕ)
    (strength : ℚ) (buf : List Pixel) (i : ℕ) (px : Pixel)
    (hi : buf.get? i = some px) (ha : px.a = 0) :
    (addAgingEffect rng size strength buf).get? i = some px :=
  agePixels_transparent_get? rng strength ((size : ℚ) / 2 - 20)
    ((size : ℚ) / 2) ((size : ℚ) / 2) _ size buf 0 10 i px hi ha

/-- Witness for C7: a concrete buffer whose second pixel is fully
transparent survives a full-strength aging pass byte-for-byte. -/
theorem aging_preserves_transparent_pixels_witness :
    (addAgingEffect (fun _ => 1/2) 2 1 [⟨200, 10, 10, 255⟩, ⟨77, 66, 55, 0⟩]).get? 1
      = some ⟨77, 66, 55, 0⟩ :=
  aging_preserves_transparent_pixels (fun _ => 1/2) 2 1
    [⟨200, 10, 10, 255⟩, ⟨77, 66, 55, 0⟩] 1 ⟨77, 66, 55, 0⟩ rfl rfl

end ClaimC7

section ClaimC8

/-- **C8**.  With `borderStyle = dashed` the outer border consists of
exactly 36 stroked arc segments (the trace has exactly 36 entries plus the
optional inner ring), the `j`-th being `dashSeg` at `10·j` degrees
(`0° … 350°`, radians `10·j·π/180`) and spanning exactly 5 degrees. -/
theorem dashed_border_36_segments (p r w : ℚ) (si : Bool) :
    (drawBorder p r w .dashed si).length = 36 + (if si then 1 else 0) ∧
    (∀ j : ℕ, j < 36 →
      (drawBorder p r w .dashed si).get? j = some (dashSeg p r w j)) ∧
    ∀ j : ℕ, (dashSeg p r w j).startA = 10 * (j : ℚ) * p / 180 ∧
      (dashSeg p r w j).endA - (dashSeg p r w j).startA = 5 * p / 180 ∧
      (dashSeg p r w j).radius = r ∧ (dashSeg p r w j).lineWidth = w := by
  have hsplit : drawBorder p r w .dashed si =
      (List.range 36).map (dashSeg p r w) ++
        (if si then [innerRing p r w] else []) := rfl
  refine ⟨?_, ?_, ?_⟩
  · rw [hsplit, List.length_append, List.length_map, List.length_range]
    cases si <;> rfl
  · intro j hj
    have hlen : j < ((List.range 36).map (dashSeg p r w)).length := by
      rw [List.length_map, List.length_range]
      exact hj
    rw [hsplit, List.get?_eq_getElem?, List.getElem?_append_left hlen,
      List.getElem?_map, List.getElem?_range hj]
    rfl
  · intro j
    refine ⟨rfl, ?_, rfl, rfl⟩
    show (10 * (j : ℚ) + 5) * p / 180 - 10 * (j : ℚ) * p / 180 = 5 * p / 180
    ring

/-- Witness for C8: the first dash segment of a concrete dashed border. -/
theorem dashed_border_36_segments_witness :
    (drawBorder (157/50) 206 6 .dashed true).get? 0 =
      some (dashSeg (157/50) 206 6 0) :=
  (dashed_border_36_segments (157/50) 206 6 true).2.1 0 (by decide)

end ClaimC8

section ClaimC9

/-- **C9**.  With `showInnerCircle = true` exactly one additional full
circle is stroked, at radius `outer − 12`, with line width
`max(2, borderWidth/2)` and shadow blur 0, and this happens for both
border styles: the trace with the inner circle is the trace without it
plus that single extra stroke. -/
theorem inner_circle_one_extra_stroke (p r w : ℚ) (style : BorderStyle) :
    (innerRing p r w).radius = r - 12 ∧
    (innerRing p r w).lineWidth = max 2 (w * (1/2)) ∧
    (innerRing p r w).shadowBlur = 0 ∧
    (innerRing p r w).startA = 0 ∧
    (innerRing p r w).endA = p * 2 ∧
    ∃ outer : List ArcStroke,
      drawBorder p r w style false = outer ∧
      drawBorder p r w style true = outer ++ [innerRing p r w] := by
  refine ⟨rfl, rfl, rfl, rfl, rfl, ⟨_, rfl, ?_⟩⟩
  cases style <;> simp [drawBorder]

end ClaimC9

section ClaimC5

theorem glyphOf_finite (cosF sinF : ℚ → ℚ) (p radius ratio s s0 : ℚ)
    (j : ℕ) (c : Char) :
    glyphOf cosF sinF p radius ratio (JSNum.fin s) s0 j c =
      { ch := c
        x := JSNum.fin (radius * ratio * cosF ((s0 + (j : ℚ) * s) * p / 180))
        y := JSNum.fin (radius * ratio * sinF ((s0 + (j : ℚ) * s) * p / 180))
        rot := JSNum.fin ((s0 + (j : ℚ) * s) * p / 180 + p / 2) } := by
  simp only [glyphOf, glyphAngle, JSNum.fin_add_fin, JSNum.fin_mul_fin,
    JSNum.fin_div_fin _ _ (by norm_num : (180:ℚ) ≠ 0),
    JSNum.fin_div_fin _ _ (by norm_num : (2:ℚ) ≠ 0), JSNum.app1_fin]

/-- **C5**.  For every company string of `n ≥ 2` characters: one glyph draw
call per character; the claimed angles `θ i = -210 + i·240/(n-1)` (degrees)
satisfy `θ 0 = -210`, `θ (n-1) = 30`, adjacent step `240/(n-1)`, symmetry
about `-90`; and the `i`-th glyph is translated to
`(radius·ratio·cos θᵢ, radius·ratio·sin θᵢ)` (radians `θᵢ·π/180`) and
rotated by `θᵢ + 90` degrees, i.e. `(θᵢ + 90)·π/180` radians. -/
theorem company_arc_layout (cosF sinF : ℚ → ℚ) (p radius fs ratio : ℚ)
    (text : String) (h2 : 2 ≤ text.toList.length) :
    (drawCompanyName cosF sinF p text radius fs ratio).length
        = text.toList.length ∧
    companyTheta text.toList.length 0 = -210 ∧
    companyTheta text.toList.length (text.toList.length - 1) = 30 ∧
    (∀ i : ℕ,
      companyTheta text.toList.length (i + 1) - companyTheta text.toList.length i
        = 240 / ((text.toList.length : ℚ) - 1)) ∧
    (companyTheta text.toList.length 0 +
        companyTheta text.toList.length (text.toList.length - 1)) / 2 = -90 ∧
    ∀ (i : ℕ) (c : Char), text.toList.get? i = some c →
      (drawCompanyName cosF sinF p text radius fs ratio).get? i =
        some { ch := c
               x := JSNum.fin (radius * ratio *
                      cosF (companyTheta text.toList.length i * p / 180))
               y := JSNum.fin (radius * ratio *
                      sinF (companyTheta text.toList.length i * p / 180))
               rot := JSNum.fin
                      ((companyTheta text.toList.length i + 90) * p / 180) } := by
  have hn1 : (1 : ℚ) ≤ (text.toList.length : ℚ) - 1 := by
    have : (2 : ℚ) ≤ (text.toList.length : ℚ) := by exact_mod_cast h2
    linarith
  have hne : ((text.toList.length : ℚ) - 1) ≠ 0 := by linarith
  have hth0 : companyTheta text.toList.length 0 = -210 := by
    unfold companyTheta
    norm_num
  have hthlast : companyTheta text.toList.length (text.toList.length - 1) = 30 := by
    unfold companyTheta
    have hcast : ((text.toList.length - 1 : ℕ) : ℚ)
        = (text.toList.length : ℚ) - 1 := by
      have h1 : 1 ≤ text.toList.length := by omega
      push_cast [h1]
      ring
    rw [hcast, mul_comm ((text.toList.length : ℚ) - 1),
      div_mul_cancel₀ (240 : ℚ) hne]
    norm_num
  have hdcn : drawCompanyName cosF sinF p text radius fs ratio
      = glyphRun cosF sinF p radius ratio
          (JSNum.fin (240 / ((text.toList.length : ℚ) - 1)))
          (-90 - 240 / 2) 0 text.toList := by
    show glyphRun cosF sinF p radius ratio
        (JSNum.fin 240 / JSNum.fin ((text.toList.length : ℚ) - 1))
        (-90 - 240 / 2) 0 text.toList = _
    rw [JSNum.fin_div_fin _ _ hne]
  refine ⟨?_, hth0, hthlast, ?_, ?_, ?_⟩
  · rw [hdcn, glyphRun_length]
  · intro i
    unfold companyTheta
    push_cast
    ring
  · rw [hth0, hthlast]
    norm_num
  · intro i c hc
    rw [hdcn, glyphRun_get? cosF sinF p radius ratio _ _ text.toList 0 i c hc,
      Nat.zero_add, glyphOf_finite]
    have harg : ((-90 - 240 / 2 : ℚ) + (i : ℚ) * (240 / ((text.toList.length : ℚ) - 1)))
        * p / 180 = companyTheta text.toList.length i * p / 180 := by
      unfold companyTheta
      ring
    have hrot : companyTheta text.toList.length i * p / 180 + p / 2
        = (companyTheta text.toList.length i + 90) * p / 180 := by
      ring
    rw [harg, hrot]

/-- Witness for C5 at the three-character company name `"ABC"`. -/
theorem company_arc_layout_witness :
    (drawCompanyName (fun _ => 0) (fun _ => 0) (157/50) "ABC" 206 60 (3/4)).length
      = "ABC".toList.length :=
  (company_arc_layout (fun _ => 0) (fun _ => 0) (157/50) 206 60 (3/4) "ABC"
    (by decide)).1

end ClaimC5

section ClaimC2

/-- Counterexample to **C2**: no sequence of random draws makes both
erosion effects fire on the same pixel in the same pass.  On the pixel
`(100,100,100,200)` at full strength, RGB darkening is observable exactly
as `r = 70` (the alpha branch and the no-op branch leave `r = 100`
untouched), and alpha erasure exactly as `a ≠ 200` (the darkening and
no-op branches leave `a = 200` untouched); no random stream produces
both, because the checks form an if / else-if chain. -/
theorem erosion_never_both_effects :
    ¬ ∃ rng : ℕ → ℚ,
      (erosionStep rng 0 1 ⟨100, 100, 100, 200⟩).1.r = 70 ∧
      (erosionStep rng 0 1 ⟨100, 100, 100, 200⟩).1.a ≠ 200 := by
  rintro ⟨rng, hr, ha⟩
  unfold erosionStep at hr ha
  by_cases h1 : rng 0 < 13/100 * 1
  · rw [if_pos h1] at hr
    simp at hr
  · rw [if_neg h1] at ha
    by_cases h2 : rng (0 + 1) < 18/100 * 1
    · rw [if_pos h2] at ha
      simp at ha
    · rw [if_neg h2] at ha
      simp at ha

/-- **C2 amended**.  The alpha-erasure and RGB-darkening checks do read
separate random draws (`rng k` and `rng (k+1)`), but they are arms of an
if / else-if chain: when the erasure check fires, the stage leaves RGB
untouched; when it does not fire, the stage leaves alpha untouched; so
the two effects are mutually exclusive on a pixel within one pass. -/
theorem erosion_effects_mutually_exclusive (rng : ℕ → ℚ) (k : ℕ) (s : ℚ)
    (px : Pixel) :
    (rng k < 13/100 * s →
      (erosionStep rng k s px).1.r = px.r ∧
      (erosionStep rng k s px).1.g = px.g ∧
      (erosionStep rng k s px).1.b = px.b) ∧
    (¬ rng k < 13/100 * s → (erosionStep rng k s px).1.a = px.a) ∧
    ¬ ((erosionStep rng k s px).1.a ≠ px.a ∧
       (erosionStep rng k s px).1.r ≠ px.r) := by
  unfold erosionStep
  by_cases h1 : rng k < 13/100 * s
  · simp [h1]
  · by_cases h2 : rng (k + 1) < 18/100 * s
    · simp [h1, h2]
    · simp [h1, h2]

/-- Witness for the amended C2: the erasure branch fires and leaves RGB
untouched. -/
theorem erosion_effects_mutually_exclusive_witness :
    (erosionStep (fun _ => 0) 0 1 ⟨100, 100, 100, 200⟩).1.r = 100 ∧
    (erosionStep (fun _ => 0) 0 1 ⟨100, 100, 100, 200⟩).1.g = 100 ∧
    (erosionStep (fun _ => 0) 0 1 ⟨100, 100, 100, 200⟩).1.b = 100 :=
  (erosion_effects_mutually_exclusive (fun _ => 0) 0 1 ⟨100, 100, 100, 200⟩).1
    (by norm_num)

end ClaimC2

section ClaimC3

/-- Counterexample to **C3**: the caller explicitly sets the documented
in-range value `opacity = 0`, but `opacity: options.opacity || 1.0`
treats `0` as falsy, so the resolved configuration holds the default `1`
instead of the caller's value. -/
theorem opacity_zero_replaced_by_default :
    (resolveOptions { emptyOptions with opacity := some 0 }).opacity = 1 ∧
    (resolveOptions { emptyOptions with opacity := some 0 }).opacity ≠ 0 := by
  constructor
  · rfl
  · rw [show (resolveOptions { emptyOptions with opacity := some 0 }).opacity
        = 1 from rfl]
    norm_num

/-- **C3 amended**.  Fields resolved with the JS `||` pattern keep an
explicitly-set value exactly when it is truthy (nonzero number, nonempty
string); a falsy set value — e.g. `opacity = 0`, `size = 0`,
`company = ""` — is replaced by the default, and `rotation = 0` survives
only because its default is also `0`.  Only the three fields compared
against `undefined` (`showInnerCircle`, `aging`, `agingStrength`) keep
every explicitly-set value; absent fields always get the default. -/
theorem resolution_preserves_truthy_values (o : SealOptions) :
    (∀ x : ℚ, o.opacity = some x → x ≠ 0 → (resolveOptions o).opacity = x) ∧
    (∀ x : ℚ, o.rotation = some x → x ≠ 0 → (resolveOptions o).rotation = x) ∧
    (o.rotation = some 0 → (resolveOptions o).rotation = 0) ∧
    (∀ n : ℕ, o.size = some n → n ≠ 0 → (resolveOptions o).size = n) ∧
    (∀ s : String, o.company = some s → s ≠ "" → (resolveOptions o).company = s) ∧
    (o.opacity = some 0 → (resolveOptions o).opacity = 1) ∧
    (o.company = some "" → (resolveOptions o).company = "测试公司") ∧
    (∀ b : Bool, o.showInnerCircle = some b → (resolveOptions o).showInnerCircle = b) ∧
    (∀ b : Bool, o.aging = some b → (resolveOptions o).aging = b) ∧
    (∀ x : ℚ, o.agingStrength = some x → (resolveOptions o).agingStrength = x) ∧
    (o.opacity = none → (resolveOptions o).opacity = 1) := by
  refine ⟨?_, ?_, ?_, ?_, ?_, ?_, ?_, ?_, ?_, ?_, ?_⟩ <;>
    · intros
      simp_all [resolveOptions, jsOrQ, jsOrN, jsOrS, jsIfUndef]

/-- Options object for the C3 witness: truthy `opacity`, falsy values on
the two `undefined`-checked fields. -/
def mixedOptions : SealOptions :=
  { emptyOptions with
      opacity := some (1/2)
      aging := some false
      agingStrength := some 0 }

/-- Witness for the amended C3: truthy `opacity = 1/2` is preserved, and
the `undefined`-checked fields keep falsy values `false` and `0`. -/
theorem resolution_preserves_truthy_values_witness :
    (resolveOptions mixedOptions).opacity = 1/2 ∧
    (resolveOptions mixedOptions).aging = false ∧
    (resolveOptions mixedOptions).agingStrength = 0 :=
  ⟨(resolution_preserves_truthy_values _).1 (1/2) rfl (by norm_num),
   (resolution_preserves_truthy_values _).2.2.2.2.2.2.2.2.1 false rfl,
   (resolution_preserves_truthy_values _).2.2.2.2.2.2.2.2.2.1 0 rfl⟩

end ClaimC3

section ClaimC10

theorem applyFade_outside (rng : ℕ → ℚ) (x y : ℚ) :
    ∀ (areas : List FadeArea),
      (∀ area ∈ areas, insideFade area x y = false) →
      ∀ (px : Pixel) (k : ℕ), applyFade rng x y areas px k = (px, k) := by
  intro areas
  induction areas with
  | nil => intro _ px k; rfl
  | cons a rest ih =>
      intro hout px k
      have hA : insideFade a x y = false := hout a (by simp)
      show applyFade rng x y (a :: rest) px k = (px, k)
      unfold applyFade
      rw [hA]
      simp only [Bool.false_eq_true, if_false]
      exact ih (fun b hb => hout b (by simp [hb])) px k

theorem erosionStep_strength_zero (rng : ℕ → ℚ) (k : ℕ) (px : Pixel)
    (h0 : 0 ≤ rng k) (h1 : 0 ≤ rng (k + 1)) :
    erosionStep rng k 0 px = (px, k + 2) := by
  have c1 : ¬ rng k < 13/100 * 0 := by rw [mul_zero]; exact not_lt.mpr h0
  have c2 : ¬ rng (k + 1) < 18/100 * 0 := by rw [mul_zero]; exact not_lt.mpr h1
  unfold erosionStep
  rw [if_neg c1, if_neg c2]

theorem agePixel_strength_zero (rng : ℕ → ℚ) (radius cx cy : ℚ)
    (areas : List FadeArea) (x y : ℚ) (px : Pixel) (k : ℕ)
    (hpos : ∀ n, 0 ≤ rng n) (ha : 0 < px.a)
    (hout : ∀ area ∈ areas, insideFade area x y = false) :
    ∃ k5 : ℕ,
      agePixel rng 0 radius cx cy areas x y px k =
        ({ r := toU8 ((px.r : ℚ) * (93/100))
           g := toU8 ((px.g : ℚ) * (93/100))
           b := toU8 ((px.b : ℚ) * (93/100))
           a := toU8 (max 0 (min 255
                  ((px.a : ℚ) * (97/100 + rng k5 * (6/100))))) }, k5 + 1) := by
  simp only [agePixel]
  rw [if_pos ha]
  simp only [mul_zero, zero_mul, add_zero, sub_zero]
  rw [toU8_clamp_coe _ (toU8_le _), toU8_clamp_coe _ (toU8_le _),
    toU8_clamp_coe _ (toU8_le _)]
  rw [erosionStep_strength_zero rng (k + 1) _ (hpos _) (hpos _)]
  rw [applyFade_outside rng x y areas hout]
  refine ⟨if sqrtGtB ((x - cx) * (x - cx) + (y - cy) * (y - cy)) (radius - 8)
      && sqrtLtB ((x - cx) * (x - cx) + (y - cy) * (y - cy)) (radius + 8)
      then k + 1 + 2 else k + 1, ?_⟩
  cases sqrtGtB ((x - cx) * (x - cx) + (y - cy) * (y - cy)) (radius - 8)
      && sqrtLtB ((x - cx) * (x - cx) + (y - cy) * (y - cy)) (radius + 8) <;> rfl

/-- **C10 amended**.  When the aging filter runs at `agingStrength = 0` it
still modifies the buffer: every pixel with alpha > 0 has R, G and B
multiplied by exactly 0.93 (with 8-bit store rounding) and its alpha
multiplied by a random factor in `[0.97, 1.03)` (clamped); grain noise and
edge erosion contribute nothing at strength 0.  But the two localized fade
ellipses are generated and applied *independently of strength*: the exact
"multiplied by 0.93" form holds for pixels outside both fade ellipses,
while a pixel inside one is additionally scaled by the area's fade factor
and its alpha by a factor in `[0.92, 0.98)` (see the counterexample). -/
theorem aging_strength_zero_pixel (rng : ℕ → ℚ) (radius cx cy : ℚ)
    (areas : List FadeArea) (x y : ℚ) (px : Pixel) (k : ℕ)
    (hrng : ∀ n, 0 ≤ rng n ∧ rng n < 1) (ha : 0 < px.a)
    (hout : ∀ area ∈ areas, insideFade area x y = false) :
    (agePixel rng 0 radius cx cy areas x y px k).1.r
        = toU8 ((px.r : ℚ) * (93/100)) ∧
    (agePixel rng 0 radius cx cy areas x y px k).1.g
        = toU8 ((px.g : ℚ) * (93/100)) ∧
    (agePixel rng 0 radius cx cy areas x y px k).1.b
        = toU8 ((px.b : ℚ) * (93/100)) ∧
    ∃ t : ℚ, 97/100 ≤ t ∧ t < 103/100 ∧
      (agePixel rng 0 radius cx cy areas x y px k).1.a
        = toU8 (max 0 (min 255 ((px.a : ℚ) * t))) := by
  obtain ⟨k5, hk⟩ := agePixel_strength_zero rng radius cx cy areas x y px k
    (fun n => (hrng n).1) ha hout
  rw [hk]
  refine ⟨rfl, rfl, rfl, ⟨97/100 + rng k5 * (6/100), ?_, ?_, rfl⟩⟩
  · have h0 : 0 ≤ rng k5 * (6/100) := mul_nonneg (hrng k5).1 (by norm_num)
    linarith
  · have h1 : rng k5 * (6/100) < 1 * (6/100) :=
      mul_lt_mul_of_pos_right (hrng k5).2 (by norm_num)
    linarith

/-- Witness for the amended C10 at a concrete pixel, stream and empty
fade-area list. -/
theorem aging_strength_zero_pixel_witness :
    (agePixel (fun _ => 1/2) 0 0 0 0 [] 5 5 ⟨100, 100, 100, 200⟩ 0).1.r
      = toU8 ((((100 : ℕ) : ℚ)) * (93/100)) :=
  (aging_strength_zero_pixel (fun _ => 1/2) 0 0 0 [] 5 5 ⟨100, 100, 100, 200⟩ 0
    (fun _ => ⟨by norm_num, by norm_num⟩) (by norm_num)
    (fun area h => absurd h (List.not_mem_nil area))).1

theorem toU8_round_down (q : ℚ) (n : ℕ) (hn : n ≤ 255)
    (hlo : (n : ℚ) ≤ q) (hhi : q < (n : ℚ) + 1/2) : toU8 q = n := by
  have hfl : ⌊q⌋ = (n : ℤ) := by
    rw [Int.floor_eq_iff]
    constructor
    · exact_mod_cast hlo
    · push_cast
      linarith
  simp only [toU8, roundHalfEven]
  rw [hfl]
  have hr : q - ((n : ℤ) : ℚ) < 1/2 := by push_cast; linarith
  rw [if_pos hr]
  rw [min_eq_right (by exact_mod_cast hn : ((n : ℕ) : ℤ) ≤ 255),
    max_eq_right (by positivity : (0 : ℤ) ≤ ((n : ℕ) : ℤ))]
  simp

theorem toU8_round_up (q : ℚ) (n : ℕ) (hn : n + 1 ≤ 255)
    (hlo : (n : ℚ) + 1/2 < q) (hhi : q < (n : ℚ) + 1) : toU8 q = n + 1 := by
  have hfl : ⌊q⌋ = (n : ℤ) := by
    rw [Int.floor_eq_iff]
    constructor
    · push_cast
      linarith
    · push_cast
      linarith
  simp only [toU8, roundHalfEven]
  rw [hfl]
  have hr1 : ¬ q - ((n : ℤ) : ℚ) < 1/2 := by push_cast; linarith
  have hr2 : (1:ℚ)/2 < q - ((n : ℤ) : ℚ) := by push_cast; linarith
  rw [if_neg hr1, if_pos hr2]
  have hcast : ((n : ℕ) : ℤ) + 1 = ((n + 1 : ℕ) : ℤ) := by push_cast; ring
  rw [hcast]
  rw [min_eq_right (by exact_mod_cast hn : ((n + 1 : ℕ) : ℤ) ≤ 255),
    max_eq_right (by positivity : (0 : ℤ) ≤ ((n + 1 : ℕ) : ℤ))]
  simp

/-- Counterexample to **C10**: at `agingStrength = 0` the two fade
ellipses are still generated and applied.  With the constant-`1/2` random
stream on a 1×1 canvas, both fade areas are the ellipse centred at
`(1/2, 1/2)` with radii `(45, 27)` and fade factor `3/5`, and the single
pixel `(100, 0, 0, 255)` lies inside both: its red channel ends at
`toU8(toU8(toU8(100·0.93)·(3/5))·(3/5)) = 34`, not the
`toU8(100·0.93) = 93` that "R is multiplied by 0.93" predicts — the fade
ellipses do contribute at strength 0, and alpha ends at 230, scaled far
below the claimed jitter range `[0.97, 1.03)` of 255. -/
theorem aging_strength_zero_fade_still_applies :
    (addAgingEffect (fun _ => (1:ℚ)/2) 1 0 [⟨100, 0, 0, 255⟩]).map Pixel.r = [34] ∧
    toU8 (((100 : ℕ) : ℚ) * (93/100)) = 93 ∧ (34 : ℕ) ≠ 93 := by
  have hc : ∀ m : ℚ, 0 ≤ m → m ≤ 255 → (max 0 (min 255 m)) = m := by
    intro m h0 h255
    rw [min_eq_right h255, max_eq_right h0]
  have e93 : toU8 (93 : ℚ) = 93 :=
    toU8_round_down 93 93 (by norm_num) (by norm_num) (by norm_num)
  have e0 : toU8 (0 : ℚ) = 0 :=
    toU8_round_down 0 0 (by norm_num) (by norm_num) (by norm_num)
  have e56 : toU8 (279/5 : ℚ) = 56 :=
    toU8_round_up (279/5) 55 (by norm_num) (by norm_num) (by norm_num)
  have e242 : toU8 (969/4 : ℚ) = 242 :=
    toU8_round_down (969/4) 242 (by norm_num) (by norm_num) (by norm_num)
  have e34 : toU8 (168/5 : ℚ) = 34 :=
    toU8_round_up (168/5) 33 (by norm_num) (by norm_num) (by norm_num)
  have e230 : toU8 (2299/10 : ℚ) = 230 :=
    toU8_round_up (2299/10) 229 (by norm_num) (by norm_num) (by norm_num)
  have ec93 : toU8 (max 0 (min 255 (93 : ℚ))) = 93 := by
    rw [hc 93 (by norm_num) (by norm_num)]
    exact e93
  have ec0 : toU8 (max 0 (min 255 (0 : ℚ))) = 0 := by
    rw [hc 0 le_rfl (by norm_num)]
    exact e0
  have e230i : toU8 (230 : ℚ) = 230 :=
    toU8_round_down 230 230 (by norm_num) (by norm_num) (by norm_num)
  have ec230 : toU8 (max 0 (min 255 (230 : ℚ))) = 230 := by
    rw [hc 230 (by norm_num) (by norm_num)]
    exact e230i
  have hsl : ∀ d2 hi : ℚ, hi ≤ 0 → sqrtLtB d2 hi = false := by
    intro d2 hi h
    unfold sqrtLtB
    rw [decide_eq_false (not_lt.mpr h), Bool.false_and]
  have hif : ∀ (A : FadeArea) (x y : ℚ),
      (x - A.x) / A.rx * ((x - A.x) / A.rx) +
        (y - A.y) / A.ry * ((y - A.y) / A.ry) < 1 →
      insideFade A x y = true := by
    intro A x y h
    unfold insideFade
    exact decide_eq_true h
  refine ⟨?_, ?_, by norm_num⟩
  · norm_num [addAgingEffect, agePixels, agePixel, mkFadeArea, applyFade,
      e93, e0, e56, e242, e34, e230, ec93, ec0, ec230, hif, hsl,
      Bool.and_false]
  · rw [show (((100 : ℕ) : ℚ)) * (93/100) = 93 by norm_num]
    exact e93

end ClaimC10
